import Mathlib

/-!
Verification of the travel-advisors-data-extractor fetch core against its
design spec.  The development shallowly embeds the JavaScript sources:

* `src/libs/file-cache.js`      → the `FileCache` definitions (persistent
  response cache with TTL, shape tagging, corruption eviction);
* `src/libs/websearch-proxy.js` → the `Proxy` definitions (round-robin
  identity rotation);
* `src/libs/proxy-fetch.js`     → `ProxyFetch.fetch` and
  `getRequestHash` (cache-first single-attempt fetch client);
* `src/scrape-full-advisors.js` → the orchestrator definitions
  (`fetchPageGo`, `fetchAgentBioGo`, `runBatch`, `phase1`,
  `buildBioRecord`).

File-system, clock, network and crypto primitives are external
collaborators; they are modelled by explicit state passing (the cache
store), an explicit `now : Nat` clock (milliseconds, `Date.now()`), and
explicit `Except` oracles for the outcome of each network call.
-/

/-- Model of a JavaScript value that can appear as a fetched JSON body or a
cache payload: a primitive string, number, boolean, `null`, or a structured
array/object.  (`undefined` and functions are not JSON-serializable and do
not occur in the modelled data paths.) -/
inductive JSValue where
  | str : String → JSValue
  | num : Int → JSValue
  | bool : Bool → JSValue
  | null : JSValue
  | arr : List JSValue → JSValue
  | obj : List (String × JSValue) → JSValue

/-- JavaScript truthiness of a value, as tested by `if (cachedResult)` in
`ProxyFetch.fetch`: the empty string, `0`, `false` and `null` are falsy;
every object or array is truthy. -/
def jsTruthy : JSValue → Bool
  | .str s => s ≠ ""
  | .num n => n ≠ 0
  | .bool b => b
  | .null => false
  | .arr _ => true
  | .obj _ => true

/-- Model of JavaScript string coercion (template-literal interpolation) for
the values that occur in error messages; structured values are coarsely
modelled, matching only the primitive cases exactly. -/
def jsDisplay : JSValue → String
  | .str s => s
  | .num n => toString n
  | .bool b => cond b "true" "false"
  | .null => "null"
  | .arr _ => ""
  | .obj _ => "[object Object]"

mutual
/-- Model of the runtime's `JSON.stringify` on a `JSValue` (string escaping
elided; only determinism is relied upon, never parsing of the output). -/
def JSValue.stringify : JSValue → String
  | .null => "null"
  | .bool b => cond b "true" "false"
  | .num n => toString n
  | .str s => "\"" ++ s ++ "\""
  | .arr xs => "[" ++ stringifyArr xs ++ "]"
  | .obj fs => "\x7b" ++ stringifyObj fs ++ "\x7d"

/-- Comma-joined serialization of an array's elements. -/
def stringifyArr : List JSValue → String
  | [] => ""
  | [x] => JSValue.stringify x
  | x :: xs => JSValue.stringify x ++ "," ++ stringifyArr xs

/-- Comma-joined serialization of an object's fields. -/
def stringifyObj : List (String × JSValue) → String
  | [] => ""
  | [f] => "\"" ++ f.1 ++ "\":" ++ JSValue.stringify f.2
  | f :: fs => "\"" ++ f.1 ++ "\":" ++ JSValue.stringify f.2 ++ "," ++ stringifyObj fs
end

/-- Errors with which a modelled network or credential-service call can
fail (an axios network error, a non-success HTTP status rejection, the
20-second timeout, or a failure of the Webshare credential-service call). -/
inductive JSError where
  | network : String → JSError
  | httpStatus : Nat → JSError
  | timeout : JSError
  | poolUnavailable : String → JSError
deriving DecidableEq

/- ----------------------------------------------------------------- -/
/- FileCache (src/libs/file-cache.js)                                 -/
/- ----------------------------------------------------------------- -/

/-- The `value` field of a persisted cache entry, as recovered by the outer
`JSON.parse` of the file body.  `set` writes a plain string there on the
`type = "string"` path and `JSON.stringify(value)` on the `type = "json"`
path.  The runtime's codec is external; it is modelled by its two
guarantees: `JSON.parse (JSON.stringify v)` returns `v` (constructor
`enc v`), and a plain string that is not such an encoding is rejected by
the inner `JSON.parse` (constructor `plain s`). -/
inductive StoredVal where
  | plain : String → StoredVal
  | enc : JSValue → StoredVal

/-- The string the `value` field holds, as returned verbatim by the
`type = "string"` branch of `get`. -/
def StoredVal.asString : StoredVal → JSValue
  | .plain s => .str s
  | .enc v => .str v.stringify

/-- Parsed shape of a well-formed cache file, mirroring the object
`\x7btype, value, expiresAt\x7d` written by `FileCache.set`
(`expiresAt` in milliseconds since the epoch). -/
structure StoredData where
  type : String
  value : StoredVal
  expiresAt : Nat

/-- Contents of one cache file: either a body whose outer `JSON.parse`
succeeds with a `\x7btype, value, expiresAt\x7d` record, or a body on
which `JSON.parse` throws (a corrupted file). -/
inductive FileContent where
  | entry : StoredData → FileContent
  | malformed : FileContent

/-- The cache directory: one file per cache key.  (`_getFilePath` applies
`encodeURIComponent`, which is injective, so files are keyed here directly
by the cache key.) -/
abbrev Store : Type := List (String × FileContent)

/-- Read the file stored under a key (`fs.existsSync` + `fs.readFileSync`). -/
def storeRead (st : Store) (k : String) : Option FileContent :=
  List.lookup k st

/-- Delete the file stored under a key (`fs.unlinkSync`). -/
def storeErase (st : Store) (k : String) : Store :=
  List.filter (fun e => e.1 != k) st

/-- Overwrite the file stored under a key (`fs.writeFileSync`). -/
def storeWrite (st : Store) (k : String) (c : FileContent) : Store :=
  (k, c) :: storeErase st k

/-- Embedding of `FileCache.set(key, value, ttlSeconds)` at clock time
`now`: a no-op when `ttlSeconds <= 0`; otherwise persists the value tagged
with its shape (`"string"` vs `"json"`, by `typeof value === "string"`)
and `expiresAt = Date.now() + ttlSeconds * 1000`. -/
def FileCache.set (st : Store) (key : String) (v : JSValue) (ttlSeconds : Int)
    (now : Nat) : Store :=
  if ttlSeconds ≤ 0 then st
  else
    let expiresAt := now + ttlSeconds.toNat * 1000
    let d : StoredData :=
      match v with
      | .str s => ⟨"string", .plain s, expiresAt⟩
      | _ => ⟨"json", .enc v, expiresAt⟩
    storeWrite st key (FileContent.entry d)

/-- Embedding of `FileCache.get(key)` at clock time `now`.  Returns the
retrieved value (`none` models `undefined`) together with the store after
`get`'s side effects: a missing file yields `none`; an unparseable body is
deleted and yields `none`; an entry with nonzero `expiresAt` strictly in
the past is deleted and yields `none`; otherwise the value is restored
according to its `type` tag (an unrecognized tag yields `none` and keeps
the file).  The embedding is a total function, mirroring that `get` never
throws to its caller (every exception is caught). -/
def FileCache.get (st : Store) (key : String) (now : Nat) :
    Option JSValue × Store :=
  match storeRead st key with
  | none => (none, st)
  | some FileContent.malformed => (none, storeErase st key)
  | some (FileContent.entry d) =>
    if d.expiresAt ≠ 0 ∧ d.expiresAt < now then (none, storeErase st key)
    else if d.type = "string" then (some d.value.asString, st)
    else if d.type = "json" then
      match d.value with
      | StoredVal.plain _ => (none, storeErase st key)
      | StoredVal.enc v => (some v, st)
    else (none, st)

/-- Embedding of `FileCache.delete(key)`: removes the file and reports
whether it existed. -/
def FileCache.deleteKey (st : Store) (key : String) : Bool × Store :=
  match storeRead st key with
  | some _ => (true, storeErase st key)
  | none => (false, st)

/- ----------------------------------------------------------------- -/
/- Request fingerprint (src/libs/proxy-fetch.js, _getRequestHash)     -/
/- ----------------------------------------------------------------- -/

/-- A header object, modelled extensionally as a map from header name to
value (JS property access `headers.Cookie`); an absent header is `none`.
Property access never depends on object key order, so the model is
order-free by construction. -/
abbrev Headers := String → Option String

/-- The session header selected for the cache key: `headers.Cookie || ""`
(for string values the only falsy string is `""`, so `|| ""` coincides
with defaulting an absent header to `""`). -/
def cookieOf (headers : Headers) : String :=
  (headers "Cookie").getD ""

/-- Serialization of the `keyInput` object fed to the hash:
`JSON.stringify` of the record with fields `url` and `cookie` (string
escaping elided; only determinism and injectivity at a fixed url are
used, and both hold with or without escaping). -/
def keyInputString (url cookie : String) : String :=
  "\x7b\"url\":\"" ++ url ++ "\",\"cookie\":\"" ++ cookie ++ "\"\x7d"

/-- Model of `crypto.createHash("sha256").update(s).digest("hex")`: the
hash is an external crypto primitive whose contract for this system is
determinism plus freedom from collisions at this workload's scale (spec
§4.2); it is modelled as an injective encoding of its input. -/
def sha256Hex (s : String) : String := s

/-- Embedding of `ProxyFetch._getRequestHash(url, headers)`: a hash of
exactly the url and the session (Cookie) header. -/
def getRequestHash (url : String) (headers : Headers) : String :=
  sha256Hex (keyInputString url (cookieOf headers))

/- ----------------------------------------------------------------- -/
/- Identity rotation (src/libs/websearch-proxy.js)                    -/
/- ----------------------------------------------------------------- -/

/-- One proxy tuple as returned by the Webshare credential service
(`res.results` entries: username, password, proxy_address, port). -/
structure ProxyData where
  username : String
  password : String
  proxy_address : String
  port : Nat
deriving DecidableEq

/-- Mutable state of the `Proxy` singleton: the lazily fetched pool and
the monotonically increasing rotation counter. -/
structure ProxyState where
  proxies : List ProxyData
  index : Nat

/-- The proxy URL `getProxyAgent` builds from a pool entry. -/
def proxyUrlOf (p : ProxyData) : String :=
  "http://" ++ p.username ++ ":" ++ p.password ++ "@" ++ p.proxy_address ++
    ":" ++ toString p.port

/-- Embedding of `Proxy._getNextProxy()`: returns
`proxies[index % proxies.length]` and increments the counter.  (On an
empty pool the source would index with `NaN` and produce `undefined`;
`none` models that, and `getProxyAgent` always populates the pool before
calling this.) -/
def getNextProxy (s : ProxyState) : Option ProxyData × ProxyState :=
  ((s.proxies.get? (s.index % s.proxies.length) : Option ProxyData),
    ⟨s.proxies, s.index + 1⟩)

/-- Results of `n` consecutive `_getNextProxy` acquisitions from a state. -/
def acquireList (s : ProxyState) : Nat → List (Option ProxyData)
  | 0 => []
  | n + 1 => (getNextProxy s).1 :: acquireList (getNextProxy s).2 n

/- ----------------------------------------------------------------- -/
/- Fetch client (src/libs/proxy-fetch.js, ProxyFetch.fetch)           -/
/- ----------------------------------------------------------------- -/

/-- Settlement of the promise returned by `ProxyFetch.fetch`: it can
resolve with a body, reject with an error, or never settle.  The last
case arises when `getProxyAgent()` rejects: the chain
`websearchProxy.getProxyAgent().then((agent) => ...)` installs no
rejection handler, so neither `resolve` nor `reject` is ever invoked and
the rejection escapes as an unhandled promise rejection instead of a
settlement of the returned promise. -/
inductive PromiseResult where
  | resolved : JSValue → PromiseResult
  | rejected : JSError → PromiseResult
  | pending : PromiseResult

/-- An axios success result; the source consumes only `response.data`. -/
structure HttpResponse where
  data : JSValue

/-- Observables of one `ProxyFetch.fetch` call: the promise settlement,
the cache store after all side effects, and whether the identity rotator
(`getProxyAgent`) and the network (`axios.get`) were invoked. -/
structure FetchResult where
  result : PromiseResult
  store : Store
  calledGetProxyAgent : Bool
  calledHttpGet : Bool

/-- Truthiness of a `cache.get` result as tested by `if (cachedResult)`
(`undefined`, modelled by `none`, is falsy). -/
def optTruthy : Option JSValue → Bool
  | none => false
  | some v => jsTruthy v

/-- The cache-miss path of `ProxyFetch.fetch`: acquire a proxy agent,
then perform the axios request.  `proxyRes` is the outcome of
`getProxyAgent()` (rejection models a credential-service failure) and
`httpRes` the outcome of `axios.get` for this single attempt (rejection
models a network error, a non-success status, or the 20 s timeout).  On
success the body is cached under the key with the caller's ttl and the
promise resolves with the body; on request failure the promise rejects
with the same error; on proxy-acquisition failure no rejection handler
exists, so the promise never settles. -/
def fetchViaNetwork (st : Store) (cacheKey : String) (ttl : Int)
    (now : Nat) (proxyRes : Except JSError Unit)
    (httpRes : Except JSError HttpResponse) : FetchResult :=
  match proxyRes with
  | .error _ => ⟨.pending, st, true, false⟩
  | .ok _ =>
    match httpRes with
    | .error e => ⟨.rejected e, st, true, true⟩
    | .ok r =>
      ⟨.resolved r.data, FileCache.set st cacheKey r.data ttl now, true,
        true⟩

/-- Embedding of `ProxyFetch.fetch(url, customHeaders, ttl)` at clock
time `now`: compute the request hash from the url and the Cookie header,
read the cache, and resolve with a truthy cached value immediately (the
`if (cachedResult)` test); otherwise take the network path.  (The rotated
browser headers synthesized on the network path influence no modelled
observable and are elided.) -/
def ProxyFetch.fetch (st : Store) (url : String) (customHeaders : Headers)
    (ttl : Int) (now : Nat) (proxyRes : Except JSError Unit)
    (httpRes : Except JSError HttpResponse) : FetchResult :=
  let cacheKey := getRequestHash url customHeaders
  let g := FileCache.get st cacheKey now
  match g.1 with
  | some v =>
    if jsTruthy v then ⟨.resolved v, g.2, false, false⟩
    else fetchViaNetwork g.2 cacheKey ttl now proxyRes httpRes
  | none => fetchViaNetwork g.2 cacheKey ttl now proxyRes httpRes

/- ----------------------------------------------------------------- -/
/- Batch orchestrator (src/scrape-full-advisors.js)                   -/
/- ----------------------------------------------------------------- -/

/-- One agent entry of a listing page; the scraper reads only `agentId`
(`a.agentId`), every other field is irrelevant to the modelled flow. -/
structure AgentRec where
  agentId : JSValue

/-- The `data` object of a listing response
(`totalAgents` modelled after `parseInt` as a natural number, `agent` the
page's entries). -/
structure ListingData where
  totalAgents : Nat
  agent : List AgentRec

/-- A listing response body as resolved by `proxyFetch.fetch`; the
scraper reads `res.data.agent` and `res.data.totalAgents`. -/
structure ListingBody where
  data : ListingData

/-- A detail (bio) response body; `res.data` is the object spread into
the emitted record. -/
structure BioBody where
  data : List (String × JSValue)

/-- The error-log entry pushed when a page is exhausted:
`Failed to fetch page $\x7bpage\x7d after $\x7bmaxRetries\x7d attempts.` -/
def failPageMsg (page maxRetries : Nat) : String :=
  "Failed to fetch page " ++ toString page ++ " after " ++
    toString maxRetries ++ " attempts."

/-- The error-log entry pushed when a detail fetch is exhausted:
`Failed agent $\x7bagentId\x7d after $\x7bmaxRetries\x7d attempts` -/
def failBioMsg (agentId : JSValue) (maxRetries : Nat) : String :=
  "Failed agent " ++ jsDisplay agentId ++ " after " ++
    toString maxRetries ++ " attempts"

/-- Assignment of one field onto a JS object (update in place when the
key exists, else append), as performed field-by-field by object spread. -/
def jsSet (o : List (String × JSValue)) (k : String) (v : JSValue) :
    List (String × JSValue) :=
  match o with
  | [] => [(k, v)]
  | f :: fs => if f.1 = k then (k, v) :: fs else f :: jsSet fs k v

/-- Object spread of `upd` onto `base`: each field of `upd` assigned in
order (later fields win on key conflicts). -/
def jsSpread (base upd : List (String × JSValue)) :
    List (String × JSValue) :=
  upd.foldl (fun acc f => jsSet acc f.1 f.2) base

/-- JS property read `o[k]` on an object. -/
def jsGet (o : List (String × JSValue)) (k : String) : Option JSValue :=
  (o.find? (fun f => f.1 == k)).map (fun f => f.2)

/-- Embedding of the record construction in `fetchAgentBio`:
`\x7bid: agentId, ...res.data\x7d`. -/
def buildBioRecord (agentId : JSValue) (data : List (String × JSValue)) :
    List (String × JSValue) :=
  jsSpread [("id", agentId)] data

/-- Embedding of `fetchPage(page, bar, errors, attempt)`: one fetch
attempt per call (`net attempt` is the outcome of the attempt-th fetch of
this page); on failure with `attempt < maxRetries` it sleeps 200 ms (no
modelled observable) and recurses with `attempt + 1`; once retries are
exhausted it pushes one error-log entry and returns `[]` (the skip
value).  The returned triple carries the page's agents, the error log,
and the number of attempts performed. -/
def fetchPageGo (maxRetries : Nat) (net : Nat → Except JSError ListingBody)
    (page : Nat) (errors : List String) (attempt : Nat) :
    List AgentRec × List String × Nat :=
  match net attempt with
  | .ok res => (res.data.agent, errors, 1)
  | .error _ =>
    if h : attempt < maxRetries then
      let r := fetchPageGo maxRetries net page errors (attempt + 1)
      (r.1, r.2.1, r.2.2 + 1)
    else ([], errors ++ [failPageMsg page maxRetries], 1)
termination_by maxRetries - attempt
decreasing_by omega

/-- Embedding of `fetchAgentBio(agentId, errors, bar, attempt)`: same
retry structure as `fetchPage`; on success it returns the record
`\x7bid: agentId, ...res.data\x7d`, after exhaustion it pushes one
error-log entry and returns `null` (the skip value, modelled `none`). -/
def fetchAgentBioGo (maxRetries : Nat)
    (net : Nat → Except JSError BioBody) (agentId : JSValue)
    (errors : List String) (attempt : Nat) :
    Option (List (String × JSValue)) × List String × Nat :=
  match net attempt with
  | .ok res => (some (buildBioRecord agentId res.data), errors, 1)
  | .error _ =>
    if h : attempt < maxRetries then
      let r := fetchAgentBioGo maxRetries net agentId errors (attempt + 1)
      (r.1, r.2.1, r.2.2 + 1)
    else (none, errors ++ [failBioMsg agentId maxRetries], 1)
termination_by maxRetries - attempt
decreasing_by omega

/-- One phase-1 batch: `Promise.allSettled(batchPages.map(fetchPage))`
followed by collecting every settled result (`fetchPage` never rejects,
so all results are fulfilled).  The shared `errors` array is threaded
through the items; within a real batch the push order is settlement
order, which is timing-dependent — the model serializes it in item
order, which fixes one admissible order and the exact multiset of
entries.  `net p a` is the outcome of the `a`-th attempt for page `p`. -/
def runBatch (maxRetries : Nat)
    (net : Nat → Nat → Except JSError ListingBody) (bp : List Nat)
    (errors : List String) : List (List AgentRec) × List String :=
  match bp with
  | [] => ([], errors)
  | p :: rest =>
    let r := fetchPageGo maxRetries (net p) p errors 1
    let t := runBatch maxRetries net rest r.2.1
    (r.1 :: t.1, t.2)

/-- Ceiling page count `Math.ceil(total / pageSize)`, for a positive
integral `pageSize`. -/
def pageCountOf (total pageSize : Nat) : Nat :=
  (total + pageSize - 1) / pageSize

/-- Result of phase 1: the collected agent ids, the error log, and the
trace of page indices fetched through the batch loop. -/
structure Phase1Out where
  ids : List JSValue
  errors : List String
  fetchedPages : List Nat

/-- The phase-1 batch loop (`for (let i = 1; i < pages; i += batchSize)`):
partitions the remaining pages `[i, pages)` into batches of size
`batchSize` (`Array.from(\x7blength: Math.min(batchSize, pages - i)\x7d,
(_, j) => i + j)`), runs each batch, appends the returned agent ids of
fulfilled results, and records the page indices fetched by the loop.  A
zero `batchSize` would loop forever in the source (`i += 0`); the model
returns immediately in that case and every theorem assumes
`1 ≤ batchSize`.  The inter-batch sleep affects no modelled observable. -/
def phase1Loop (batchSize maxRetries : Nat)
    (net : Nat → Nat → Except JSError ListingBody) (pages i : Nat)
    (acc : List JSValue) (errors : List String) (fetched : List Nat) :
    Phase1Out :=
  if _h : batchSize = 0 ∨ pages ≤ i then ⟨acc, errors, fetched⟩
  else
    let bp := List.range' i (min batchSize (pages - i))
    let r := runBatch maxRetries net bp errors
    phase1Loop batchSize maxRetries net pages (i + batchSize)
      (acc ++ (r.1.map (fun ag => ag.map AgentRec.agentId)).flatten)
      r.2 (fetched ++ bp)
termination_by pages - i
decreasing_by omega

/-- Phase 1 of `work()`: fetch page 0 directly (unbatched, no retry — its
failure propagates and is fatal), derive
`pages = Math.ceil(totalAgents / pageSize)` from its body, seed the id
list with page 0's agent ids, then run the batch loop from page 1. -/
def phase1 (pageSize batchSize maxRetries : Nat)
    (net : Nat → Nat → Except JSError ListingBody) :
    Except JSError Phase1Out :=
  match net 0 1 with
  | .error e => .error e
  | .ok first =>
    let pages := pageCountOf first.data.totalAgents pageSize
    let ids0 := first.data.agent.map AgentRec.agentId
    .ok (phase1Loop batchSize maxRetries net pages 1 ids0 [] [])

/- ----------------------------------------------------------------- -/
/- Theorems                                                           -/
/- ----------------------------------------------------------------- -/

theorem storeRead_storeWrite_self (st : Store) (k : String) (c : FileContent) :
    storeRead (storeWrite st k c) k = some c := by
  simp [storeRead, storeWrite, List.lookup]

theorem storeRead_storeErase_self (st : Store) (k : String) :
    storeRead (storeErase st k) k = none := by
  rw [storeRead, List.lookup_eq_none_iff]
  intro p hp
  have h := (List.mem_filter.mp hp).2
  simp only [bne_iff_ne] at h ⊢
  exact fun hk => h hk.symm

/- ----------------------------------------------------------------- -/
/- Claims C5, C6, C7 — FileCache contract                             -/
/- ----------------------------------------------------------------- -/

/-- C5: for every key `k`, every value `v` (string or structured) and every
`ttl > 0`, performing `FileCache.set(k, v, ttl)` and then `FileCache.get(k)`
before the ttl elapses returns a value equal to `v` with its original shape
(equality in `JSValue` preserves the string/structured shape), and leaves
the store as `set` left it. -/
theorem c5_cache_round_trip (st : Store) (k : String) (v : JSValue)
    (ttl : Int) (now now' : Nat) (httl : 0 < ttl)
    (hlive : now' ≤ now + ttl.toNat * 1000) :
    FileCache.get (FileCache.set st k v ttl now) k now' =
      (some v, FileCache.set st k v ttl now) := by
  have hnot : ¬ ttl ≤ 0 := by omega
  have hexp : ¬ (now + ttl.toNat * 1000 < now') := by omega
  cases v <;>
    simp [FileCache.set, hnot, FileCache.get, storeRead_storeWrite_self,
      hexp, StoredVal.asString]

/-- Witness for C5 at a concrete input: a structured value cached for 7
seconds at time 2 is returned unchanged at time 5. -/
theorem c5_cache_round_trip_witness :
    (0 : Int) < 7 ∧ (5 : Nat) ≤ 2 + (7 : Int).toNat * 1000 ∧
    FileCache.get (FileCache.set [] "k" (JSValue.num 42) 7 2) "k" 5 =
      (some (JSValue.num 42), FileCache.set [] "k" (JSValue.num 42) 7 2) :=
  ⟨by decide, by decide,
    c5_cache_round_trip [] "k" (JSValue.num 42) 7 2 5 (by decide) (by decide)⟩

/-- C6: for every key, value and `ttlSeconds ≤ 0`, `FileCache.set` leaves
the cache store completely unchanged (it neither writes nor deletes
anything); in particular `set(k, v, 0)` followed by `get(k)` returns absent
when no prior entry existed. -/
theorem c6_set_nonpositive_ttl_noop (st st2 : Store) (k k2 : String)
    (v v2 : JSValue) (ttl : Int) (now now2 now3 : Nat) :
    (ttl ≤ 0 → FileCache.set st k v ttl now = st) ∧
    (storeRead st2 k2 = none →
      (FileCache.get (FileCache.set st2 k2 v2 0 now2) k2 now3).1 = none) := by
  constructor
  · intro httl
    simp [FileCache.set, httl]
  · intro habsent
    simp [FileCache.set, FileCache.get, habsent]

/-- Witness for C6 at concrete inputs: `set` with ttl `-3` leaves a
nonempty store untouched, and `set` with ttl `0` on an empty store is
followed by an absent `get`. -/
theorem c6_set_nonpositive_ttl_noop_witness :
    ((-3 : Int) ≤ 0 →
      FileCache.set [("a", FileContent.malformed)] "a" (JSValue.str "x")
        (-3) 10 = [("a", FileContent.malformed)]) ∧
    (storeRead [] "k" = none →
      (FileCache.get (FileCache.set [] "k" (JSValue.str "x") 0 10) "k"
        11).1 = none) :=
  c6_set_nonpositive_ttl_noop [("a", FileContent.malformed)] [] "a" "k"
    (JSValue.str "x") (JSValue.str "x") (-3) 10 10 11

/-- C7: `FileCache.get` never raises (it is a total function of the store
and clock); a malformed (unparseable) entry is deleted as a side effect
and reported absent; an entry whose (nonzero) expiry timestamp is in the
past is deleted and reported absent; and a `set` entry read after its ttl
has elapsed is reported absent with the entry removed from the store. -/
theorem c7_get_corruption_and_expiry (st1 st2 st3 : Store)
    (k1 k2 k3 : String) (now1 now2 now3 now4 : Nat) (d : StoredData)
    (v : JSValue) (ttl : Int) :
    (storeRead st1 k1 = some FileContent.malformed →
      FileCache.get st1 k1 now1 = (none, storeErase st1 k1) ∧
      storeRead (FileCache.get st1 k1 now1).2 k1 = none) ∧
    (storeRead st2 k2 = some (FileContent.entry d) → d.expiresAt ≠ 0 →
      d.expiresAt < now2 →
      FileCache.get st2 k2 now2 = (none, storeErase st2 k2) ∧
      storeRead (FileCache.get st2 k2 now2).2 k2 = none) ∧
    (0 < ttl → now3 + ttl.toNat * 1000 < now4 →
      (FileCache.get (FileCache.set st3 k3 v ttl now3) k3 now4).1 = none ∧
      storeRead (FileCache.get (FileCache.set st3 k3 v ttl now3) k3
        now4).2 k3 = none) := by
  refine ⟨fun hmal => ?_, fun hent hnz hpast => ?_, fun httl helapsed => ?_⟩
  · simp [FileCache.get, hmal, storeRead_storeErase_self]
  · simp [FileCache.get, hent, hnz, hpast, storeRead_storeErase_self]
  · have hnot : ¬ ttl ≤ 0 := by omega
    have hnz : ¬ (now3 + ttl.toNat * 1000 = 0) := by omega
    cases v <;>
      simp [FileCache.set, hnot, FileCache.get, storeRead_storeWrite_self,
        hnz, helapsed, storeRead_storeErase_self]

/-- Witness for C7 at concrete inputs: a malformed file and a stale entry
are both evicted, and an entry cached at time 0 with ttl 1 is absent and
removed at time 2000. -/
theorem c7_get_corruption_and_expiry_witness :
    (storeRead [("m", FileContent.malformed)] "m" =
        some FileContent.malformed →
      FileCache.get [("m", FileContent.malformed)] "m" 5 =
        (none, storeErase [("m", FileContent.malformed)] "m") ∧
      storeRead (FileCache.get [("m", FileContent.malformed)] "m" 5).2
        "m" = none) ∧
    (storeRead [("e", FileContent.entry ⟨"string", StoredVal.plain "x", 7⟩)]
        "e" = some (FileContent.entry ⟨"string", StoredVal.plain "x", 7⟩) →
      (7 : Nat) ≠ 0 → (7 : Nat) < 9 →
      FileCache.get [("e", FileContent.entry
          ⟨"string", StoredVal.plain "x", 7⟩)] "e" 9 =
        (none, storeErase [("e", FileContent.entry
          ⟨"string", StoredVal.plain "x", 7⟩)] "e") ∧
      storeRead (FileCache.get [("e", FileContent.entry
          ⟨"string", StoredVal.plain "x", 7⟩)] "e" 9).2 "e" = none) ∧
    ((0 : Int) < 1 → 0 + (1 : Int).toNat * 1000 < 2000 →
      (FileCache.get (FileCache.set [] "k" (JSValue.str "v") 1 0) "k"
        2000).1 = none ∧
      storeRead (FileCache.get (FileCache.set [] "k" (JSValue.str "v") 1 0)
        "k" 2000).2 "k" = none) :=
  c7_get_corruption_and_expiry [("m", FileContent.malformed)]
    [("e", FileContent.entry ⟨"string", StoredVal.plain "x", 7⟩)] []
    "m" "e" "k" 5 9 0 2000 ⟨"string", StoredVal.plain "x", 7⟩
    (JSValue.str "v") 1

theorem keyInputString_inj_cookie (url c1 c2 : String)
    (h : keyInputString url c1 = keyInputString url c2) : c1 = c2 := by
  have hd := congrArg String.data h
  simp only [keyInputString, String.data_append, List.append_assoc] at hd
  have h1 := List.append_cancel_left hd
  have h2 := List.append_cancel_left h1
  have h3 := List.append_cancel_left h2
  exact String.ext (List.append_cancel_right h3)

/-- C9: the request fingerprint is a deterministic function of exactly the
URL and the Cookie header: any two header objects with the same Cookie
entry (whatever their other headers, e.g. a rotated User-Agent) produce
the same key for a url, and two header objects carrying different Cookie
values produce different keys for the same url. -/
theorem c9_fingerprint_stability (url : String) (h1 h2 h3 h4 : Headers)
    (c1 c2 : String) :
    (h1 "Cookie" = h2 "Cookie" →
      getRequestHash url h1 = getRequestHash url h2) ∧
    (h3 "Cookie" = some c1 → h4 "Cookie" = some c2 → c1 ≠ c2 →
      getRequestHash url h3 ≠ getRequestHash url h4) := by
  constructor
  · intro hc
    simp [getRequestHash, cookieOf, hc]
  · intro hc1 hc2 hne hcontra
    apply hne
    apply keyInputString_inj_cookie url
    simpa [getRequestHash, sha256Hex, cookieOf, hc1, hc2] using hcontra

/-- Witness for C9 at concrete inputs: two invocations with Cookie `"a"`
but different User-Agent headers agree, while Cookie `"a"` and Cookie
`"b"` differ. -/
theorem c9_fingerprint_stability_witness :
    ((fun k => if k = "Cookie" then some "a"
        else if k = "User-Agent" then some "UA1" else none) "Cookie" =
      (fun k => if k = "Cookie" then some "a"
        else if k = "User-Agent" then some "UA2" else none) "Cookie" →
      getRequestHash "https://example.com"
          (fun k => if k = "Cookie" then some "a"
            else if k = "User-Agent" then some "UA1" else none) =
        getRequestHash "https://example.com"
          (fun k => if k = "Cookie" then some "a"
            else if k = "User-Agent" then some "UA2" else none)) ∧
    ((fun k => if k = "Cookie" then some "a" else none) "Cookie" =
        some "a" →
      (fun k => if k = "Cookie" then some "b" else none) "Cookie" =
        some "b" →
      "a" ≠ "b" →
      getRequestHash "https://example.com"
          (fun k => if k = "Cookie" then some "a" else none) ≠
        getRequestHash "https://example.com"
          (fun k => if k = "Cookie" then some "b" else none)) :=
  c9_fingerprint_stability "https://example.com"
    (fun k => if k = "Cookie" then some "a"
      else if k = "User-Agent" then some "UA1" else none)
    (fun k => if k = "Cookie" then some "a"
      else if k = "User-Agent" then some "UA2" else none)
    (fun k => if k = "Cookie" then some "a" else none)
    (fun k => if k = "Cookie" then some "b" else none)
    "a" "b"

theorem acquireList_eq_map_range (ps : List ProxyData) (i n : Nat) :
    acquireList ⟨ps, i⟩ n =
      (List.range n).map (fun j => ps.get? ((i + j) % ps.length)) := by
  induction n generalizing i with
  | zero => rfl
  | succ n ih =>
    rw [List.range_succ_eq_map]
    simp only [acquireList, getNextProxy, ih (i + 1), List.map_cons,
      List.map_map, Nat.add_zero]
    refine congrArg (fun l => _ :: l) ?_
    refine List.map_congr_left fun j _ => ?_
    show ps.get? ((i + 1 + j) % ps.length) =
      ps.get? ((i + Nat.succ j) % ps.length)
    have hj : i + 1 + j = i + Nat.succ j := by omega
    rw [hj]

theorem map_range_mod_eq_rotate_map (ps : List ProxyData) (i : Nat)
    (h : ps ≠ []) :
    (List.range ps.length).map (fun j => ps.get? ((i + j) % ps.length)) =
      (ps.rotate (i % ps.length)).map some := by
  have hlen : 0 < ps.length := List.length_pos.mpr h
  apply List.ext_get?
  intro m
  by_cases hm : m < ps.length
  · have hr : (List.range ps.length).get? m = some m := by
      rw [List.get?_eq_getElem?]
      exact List.getElem?_range hm
    have hidx : (m + i % ps.length) % ps.length = (i + m) % ps.length := by
      rw [Nat.add_comm i m, Nat.add_mod m i, Nat.add_mod m (i % ps.length),
        Nat.mod_mod]
    have hget : ps.get? ((i + m) % ps.length) =
        some (ps.get ⟨(i + m) % ps.length, Nat.mod_lt _ hlen⟩) :=
      List.get?_eq_get (Nat.mod_lt _ hlen)
    rw [List.get?_map, List.get?_map, List.get?_rotate hm, hidx, hr,
      Option.map_some', hget]
    rfl
  · have h1 : ((List.range ps.length).map
        (fun j => ps.get? ((i + j) % ps.length))).get? m = none := by
      rw [List.get?_eq_none]
      simpa using Nat.not_lt.mp hm
    have h2 : ((ps.rotate (i % ps.length)).map some).get? m = none := by
      rw [List.get?_eq_none]
      simpa [List.length_rotate] using Nat.not_lt.mp hm
    rw [h1, h2]

/-- C4: for every non-empty pool of size `N` and any starting counter, `N`
consecutive acquisitions return exactly the pool entries in stable cyclic
order of pool index (the output list is the rotation of the pool at the
counter's residue, hence a permutation of the pool — each entry of the
pool exactly once), and the `(N+1)`-th acquisition returns the same entry
as the first. -/
theorem c4_round_robin_rotation (ps : List ProxyData) (i : Nat)
    (h : ps ≠ []) :
    acquireList ⟨ps, i⟩ ps.length =
      (ps.rotate (i % ps.length)).map some ∧
    (acquireList ⟨ps, i⟩ ps.length).Perm (ps.map some) ∧
    (acquireList ⟨ps, i⟩ (ps.length + 1)).getLast? =
      (acquireList ⟨ps, i⟩ (ps.length + 1)).head? := by
  have hlen : 0 < ps.length := List.length_pos.mpr h
  have hmain : acquireList ⟨ps, i⟩ ps.length =
      (ps.rotate (i % ps.length)).map some := by
    rw [acquireList_eq_map_range, map_range_mod_eq_rotate_map ps i h]
  refine ⟨hmain, ?_, ?_⟩
  · rw [hmain]
    exact (List.rotate_perm ps (i % ps.length)).map some
  · have hL : (acquireList ⟨ps, i⟩ (ps.length + 1)).getLast? =
        some (ps.get? ((i + ps.length) % ps.length)) := by
      rw [acquireList_eq_map_range, List.range_succ, List.map_append,
        List.map_cons, List.map_nil, List.getLast?_concat]
    have hH : (acquireList ⟨ps, i⟩ (ps.length + 1)).head? =
        some (ps.get? ((i + 0) % ps.length)) := by
      rw [acquireList_eq_map_range, List.range_succ_eq_map, List.map_cons,
        List.head?_cons]
    rw [hL, hH, Nat.add_zero, Nat.add_mod_right]

/-- Witness for C4 at a concrete pool of three identities and starting
counter 4: three acquisitions return the rotation of the pool by one, a
permutation of the pool, and the fourth acquisition repeats the first. -/
theorem c4_round_robin_rotation_witness :
    acquireList ⟨[⟨"u1", "p1", "a1", 1⟩, ⟨"u2", "p2", "a2", 2⟩,
        ⟨"u3", "p3", "a3", 3⟩], 4⟩ 3 =
      ([⟨"u1", "p1", "a1", 1⟩, ⟨"u2", "p2", "a2", 2⟩,
        ⟨"u3", "p3", "a3", 3⟩].rotate (4 % 3)).map some ∧
    (acquireList ⟨[⟨"u1", "p1", "a1", 1⟩, ⟨"u2", "p2", "a2", 2⟩,
        ⟨"u3", "p3", "a3", 3⟩], 4⟩ 3).Perm
      ([⟨"u1", "p1", "a1", 1⟩, ⟨"u2", "p2", "a2", 2⟩,
        ⟨"u3", "p3", "a3", 3⟩].map some) ∧
    (acquireList ⟨[⟨"u1", "p1", "a1", 1⟩, ⟨"u2", "p2", "a2", 2⟩,
        ⟨"u3", "p3", "a3", 3⟩], 4⟩ 4).getLast? =
      (acquireList ⟨[⟨"u1", "p1", "a1", 1⟩, ⟨"u2", "p2", "a2", 2⟩,
        ⟨"u3", "p3", "a3", 3⟩], 4⟩ 4).head? :=
  c4_round_robin_rotation
    [⟨"u1", "p1", "a1", 1⟩, ⟨"u2", "p2", "a2", 2⟩, ⟨"u3", "p3", "a3", 3⟩]
    4 (by decide)

theorem FileCache.get_some_store (st : Store) (k : String) (now : Nat)
    (v : JSValue) (h : (FileCache.get st k now).1 = some v) :
    (FileCache.get st k now).2 = st := by
  cases hr : storeRead st k with
  | none => simp [FileCache.get, hr] at h
  | some c =>
    cases c with
    | malformed => simp [FileCache.get, hr] at h
    | entry d =>
      by_cases hexp : d.expiresAt ≠ 0 ∧ d.expiresAt < now
      · simp [FileCache.get, hr, hexp] at h
      · by_cases hs : d.type = "string"
        · simp [FileCache.get, hr, hexp, hs]
        · by_cases hj : d.type = "json"
          · cases hv : d.value with
            | plain s => simp [FileCache.get, hr, hexp, hs, hj, hv] at h
            | enc w => simp [FileCache.get, hr, hexp, hs, hj, hv]
          · simp [FileCache.get, hr, hexp, hs, hj]

/- ----------------------------------------------------------------- -/
/- Claims C1, C2 — Fetch Client                                      -/
/- ----------------------------------------------------------------- -/

/-- C1 (amended): if the Response Cache holds a live, well-formed entry
under the fingerprint of (url, session headers) whose value is truthy
under JavaScript truthiness (a non-empty string, nonzero number, `true`,
array or object), then `ProxyFetch.fetch` resolves immediately with that
cached value: the store is untouched, `getProxyAgent` is never invoked
(no identity acquired) and no network request is made, whatever the proxy
and network oracles would have produced.  (The original claim, without
the truthiness restriction, fails: see the counterexample with a live
cached empty string.) -/
theorem c1_cache_hit_truthy (st : Store) (url : String)
    (customHeaders : Headers) (ttl : Int) (now : Nat)
    (proxyRes : Except JSError Unit) (httpRes : Except JSError HttpResponse)
    (v : JSValue)
    (hhit : (FileCache.get st (getRequestHash url customHeaders) now).1 =
      some v)
    (htruthy : jsTruthy v = true) :
    ProxyFetch.fetch st url customHeaders ttl now proxyRes httpRes =
      ⟨.resolved v, st, false, false⟩ := by
  have hst := FileCache.get_some_store _ _ _ _ hhit
  simp [ProxyFetch.fetch, hhit, htruthy, hst]

/-- Witness for C1 (amended) at a concrete input: a live cached non-empty
string is returned with no proxy acquisition and no network call. -/
theorem c1_cache_hit_truthy_witness :
    (FileCache.get
        [(getRequestHash "https://x.test" (fun _ => none),
          FileContent.entry ⟨"string", StoredVal.plain "x", 999999⟩)]
        (getRequestHash "https://x.test" (fun _ => none)) 5).1 =
      some (JSValue.str "x") ∧
    jsTruthy (JSValue.str "x") = true ∧
    ProxyFetch.fetch
        [(getRequestHash "https://x.test" (fun _ => none),
          FileContent.entry ⟨"string", StoredVal.plain "x", 999999⟩)]
        "https://x.test" (fun _ => none) 60 5 (Except.ok ())
        (Except.ok ⟨JSValue.str "fresh"⟩) =
      ⟨.resolved (JSValue.str "x"),
        [(getRequestHash "https://x.test" (fun _ => none),
          FileContent.entry ⟨"string", StoredVal.plain "x", 999999⟩)],
        false, false⟩ :=
  ⟨rfl, rfl,
    c1_cache_hit_truthy
      [(getRequestHash "https://x.test" (fun _ => none),
        FileContent.entry ⟨"string", StoredVal.plain "x", 999999⟩)]
      "https://x.test" (fun _ => none) 60 5 (Except.ok ())
      (Except.ok ⟨JSValue.str "fresh"⟩) (JSValue.str "x") rfl rfl⟩

/-- Counterexample to C1 as stated: the cache holds a live, well-formed
entry (an empty-string payload written by the `type = "string"` path, far
from expiry) under the request fingerprint, yet `fetch` does not return
the cached value: it acquires a proxy identity, performs the network
request, and resolves with the fresh body — because `if (cachedResult)`
tests JavaScript truthiness and `""` is falsy. -/
theorem c1_cache_hit_falsy_counterexample :
    (FileCache.get
        [(getRequestHash "https://x.test" (fun _ => none),
          FileContent.entry ⟨"string", StoredVal.plain "", 999999⟩)]
        (getRequestHash "https://x.test" (fun _ => none)) 5).1 =
      some (JSValue.str "") ∧
    ProxyFetch.fetch
        [(getRequestHash "https://x.test" (fun _ => none),
          FileContent.entry ⟨"string", StoredVal.plain "", 999999⟩)]
        "https://x.test" (fun _ => none) 0 5 (Except.ok ())
        (Except.ok ⟨JSValue.str "fresh"⟩) =
      ⟨.resolved (JSValue.str "fresh"),
        [(getRequestHash "https://x.test" (fun _ => none),
          FileContent.entry ⟨"string", StoredVal.plain "", 999999⟩)],
        true, true⟩ :=
  ⟨rfl, rfl⟩

/-- C2 (amended): when the cache yields no truthy value for the request
fingerprint, a failure of the single HTTP attempt (network error,
non-success status, timeout) is propagated to the caller unchanged — the
returned promise rejects with exactly that error and no retry happens
inside `fetch`; but when the credential-service call itself fails during
identity acquisition, the failure is NOT propagated to the caller: the
returned promise never settles (the rejection escapes as an unhandled
promise rejection).  (The original claim asserted propagation in the
credential-service case too; see the counterexample.) -/
theorem c2_single_attempt_propagation (st : Store) (url : String)
    (customHeaders : Headers) (ttl : Int) (now : Nat) (e e2 : JSError)
    (httpRes : Except JSError HttpResponse)
    (hmiss : optTruthy
      (FileCache.get st (getRequestHash url customHeaders) now).1 = false) :
    (ProxyFetch.fetch st url customHeaders ttl now (Except.ok ())
        (Except.error e) =
      ⟨.rejected e,
        (FileCache.get st (getRequestHash url customHeaders) now).2,
        true, true⟩) ∧
    (ProxyFetch.fetch st url customHeaders ttl now (Except.error e2)
        httpRes =
      ⟨.pending,
        (FileCache.get st (getRequestHash url customHeaders) now).2,
        true, false⟩) := by
  constructor <;>
  · cases hg : (FileCache.get st (getRequestHash url customHeaders) now).1 with
    | none => simp [ProxyFetch.fetch, hg, fetchViaNetwork]
    | some v =>
      rw [hg] at hmiss
      simp only [optTruthy] at hmiss
      simp [ProxyFetch.fetch, hg, hmiss, fetchViaNetwork]

/-- Witness for C2 (amended) at a concrete input: with an empty cache, a
timeout rejection is propagated unchanged, and a credential-service
failure leaves the promise unsettled. -/
theorem c2_single_attempt_propagation_witness :
    optTruthy (FileCache.get []
      (getRequestHash "https://x.test" (fun _ => none)) 5).1 = false ∧
    (ProxyFetch.fetch [] "https://x.test" (fun _ => none) 60 5
        (Except.ok ()) (Except.error JSError.timeout) =
      ⟨.rejected JSError.timeout,
        (FileCache.get []
          (getRequestHash "https://x.test" (fun _ => none)) 5).2,
        true, true⟩) ∧
    (ProxyFetch.fetch [] "https://x.test" (fun _ => none) 60 5
        (Except.error (JSError.poolUnavailable "pool fetch failed"))
        (Except.ok ⟨JSValue.str "body"⟩) =
      ⟨.pending,
        (FileCache.get []
          (getRequestHash "https://x.test" (fun _ => none)) 5).2,
        true, false⟩) :=
  ⟨rfl,
    c2_single_attempt_propagation [] "https://x.test" (fun _ => none) 60 5
      JSError.timeout (JSError.poolUnavailable "pool fetch failed")
      (Except.ok ⟨JSValue.str "body"⟩) rfl⟩

/-- Counterexample to C2 as stated: with an empty cache and a failing
credential-service call, the promise returned by `fetch` never settles —
in particular it does not reject with the propagated failure, contrary to
the claim that every identity-acquisition failure is propagated to the
caller. -/
theorem c2_pool_failure_not_propagated_counterexample :
    (ProxyFetch.fetch [] "https://x.test" (fun _ => none) 60 5
        (Except.error (JSError.poolUnavailable "pool fetch failed"))
        (Except.ok ⟨JSValue.str "body"⟩)).result = PromiseResult.pending ∧
    (ProxyFetch.fetch [] "https://x.test" (fun _ => none) 60 5
        (Except.error (JSError.poolUnavailable "pool fetch failed"))
        (Except.ok ⟨JSValue.str "body"⟩)).result ≠
      PromiseResult.rejected (JSError.poolUnavailable "pool fetch failed") := by
  refine ⟨rfl, fun h => ?_⟩
  have h2 : PromiseResult.pending =
      PromiseResult.rejected (JSError.poolUnavailable "pool fetch failed") := h
  exact PromiseResult.noConfusion h2

theorem fetchPageGo_first_ok (maxRetries : Nat)
    (net : Nat → Except JSError ListingBody) (page : Nat)
    (errors : List String) (b : ListingBody) (h : net 1 = Except.ok b) :
    fetchPageGo maxRetries net page errors 1 = (b.data.agent, errors, 1) := by
  unfold fetchPageGo
  rw [h]

theorem fetchPageGo_allFail (maxRetries : Nat)
    (net : Nat → Except JSError ListingBody) (page : Nat)
    (errors : List String) (attempt : Nat)
    (hfail : ∀ a, ∃ e, net a = Except.error e) (h2 : attempt ≤ maxRetries) :
    fetchPageGo maxRetries net page errors attempt =
      ([], errors ++ [failPageMsg page maxRetries],
        maxRetries - attempt + 1) := by
  obtain ⟨e, he⟩ := hfail attempt
  by_cases h : attempt < maxRetries
  · have ih := fetchPageGo_allFail maxRetries net page errors (attempt + 1)
      hfail (by omega)
    unfold fetchPageGo
    rw [he, dif_pos h]
    simp only [ih]
    have h3 : maxRetries - (attempt + 1) + 1 + 1 =
        maxRetries - attempt + 1 := by omega
    simp [h3]
  · have hedge : attempt = maxRetries := by omega
    unfold fetchPageGo
    rw [he, dif_neg h]
    simp [hedge]
termination_by maxRetries - attempt

theorem fetchAgentBioGo_allFail (maxRetries : Nat)
    (net : Nat → Except JSError BioBody) (agentId : JSValue)
    (errors : List String) (attempt : Nat)
    (hfail : ∀ a, ∃ e, net a = Except.error e) (h2 : attempt ≤ maxRetries) :
    fetchAgentBioGo maxRetries net agentId errors attempt =
      (none, errors ++ [failBioMsg agentId maxRetries],
        maxRetries - attempt + 1) := by
  obtain ⟨e, he⟩ := hfail attempt
  by_cases h : attempt < maxRetries
  · have ih := fetchAgentBioGo_allFail maxRetries net agentId errors
      (attempt + 1) hfail (by omega)
    unfold fetchAgentBioGo
    rw [he, dif_pos h]
    simp only [ih]
    have h3 : maxRetries - (attempt + 1) + 1 + 1 =
        maxRetries - attempt + 1 := by omega
    simp [h3]
  · have hedge : attempt = maxRetries := by omega
    unfold fetchAgentBioGo
    rw [he, dif_neg h]
    simp [hedge]
termination_by maxRetries - attempt

theorem runBatch_allSuccess (maxRetries : Nat)
    (net : Nat → Nat → Except JSError ListingBody) (body : Nat → ListingBody)
    (bp : List Nat) (errors : List String)
    (hok : ∀ q ∈ bp, net q 1 = Except.ok (body q)) :
    runBatch maxRetries net bp errors =
      (bp.map (fun q => (body q).data.agent), errors) := by
  induction bp generalizing errors with
  | nil => rfl
  | cons p rest ih =>
    have hp := hok p (by simp)
    have hr : ∀ q ∈ rest, net q 1 = Except.ok (body q) := fun q hq =>
      hok q (by simp [hq])
    unfold runBatch
    rw [fetchPageGo_first_ok maxRetries (net p) p errors (body p) hp]
    simp [ih errors hr]

theorem runBatch_one_fail (maxRetries : Nat)
    (net : Nat → Nat → Except JSError ListingBody) (body : Nat → ListingBody)
    (p0 : Nat) (bp : List Nat) (errors : List String)
    (hmr : 1 ≤ maxRetries)
    (hok : ∀ q ∈ bp, q ≠ p0 → net q 1 = Except.ok (body q))
    (hp0 : ∀ a, ∃ e, net p0 a = Except.error e)
    (hcount : bp.count p0 = 1) :
    runBatch maxRetries net bp errors =
      (bp.map (fun q => if q = p0 then [] else (body q).data.agent),
        errors ++ [failPageMsg p0 maxRetries]) := by
  induction bp generalizing errors with
  | nil => simp at hcount
  | cons p rest ih =>
    by_cases hp : p = p0
    · subst hp
      have hrest0 : rest.count p = 0 := by
        have hcs : List.count p (p :: rest) = List.count p rest + 1 := by
          simp
        omega
      have hnotp : p ∉ rest := List.count_eq_zero.mp hrest0
      have hallok : ∀ q ∈ rest, net q 1 = Except.ok (body q) := by
        intro q hq
        refine hok q (by simp [hq]) fun hqp => hnotp (hqp ▸ hq)
      have h1 : fetchPageGo maxRetries (net p) p errors 1 =
          ([], errors ++ [failPageMsg p maxRetries], maxRetries - 1 + 1) :=
        fetchPageGo_allFail maxRetries (net p) p errors 1 hp0 hmr
      have h2 : runBatch maxRetries net rest
            (errors ++ [failPageMsg p maxRetries]) =
          (rest.map (fun q => (body q).data.agent),
            errors ++ [failPageMsg p maxRetries]) :=
        runBatch_allSuccess maxRetries net body rest _ hallok
      have hmap : rest.map (fun q => (body q).data.agent) =
          rest.map (fun q => if q = p then [] else (body q).data.agent) := by
        refine List.map_congr_left fun q hq => ?_
        have hqp : ¬ q = p := fun hqp => hnotp (hqp ▸ hq)
        simp [hqp]
      unfold runBatch
      simp only [h1, h2]
      simp [hmap]
    · have hc := List.count_cons p0 p rest
      have hbp : (p == p0) = false := by
        simp [hp]
      rw [hbp] at hc
      simp at hc
      have hrest1 : rest.count p0 = 1 := by omega
      have hokr : ∀ q ∈ rest, q ≠ p0 → net q 1 = Except.ok (body q) :=
        fun q hq hqp => hok q (by simp [hq]) hqp
      have h1 : fetchPageGo maxRetries (net p) p errors 1 =
          ((body p).data.agent, errors, 1) :=
        fetchPageGo_first_ok maxRetries (net p) p errors (body p)
          (hok p (by simp) hp)
      have h2 := ih errors hokr hrest1
      unfold runBatch
      simp only [h1, h2]
      simp [hp]

/-- C3: a work item whose fetch fails on every attempt is attempted
exactly `maxRetries` times (attempt counter starting at 1, retrying while
`attempt < maxRetries`), appends exactly one entry to the error log, and
returns the skip value — `[]` for a listing page, `null` (`none`) for a
detail record — instead of raising; and a batch containing exactly one
such item still yields every other item's own result, with the error log
growing by exactly that one entry. -/
theorem c3_retry_exhaustion (maxRetries : Nat)
    (net : Nat → Except JSError ListingBody)
    (bnet : Nat → Except JSError BioBody) (page : Nat) (agentId : JSValue)
    (errors1 errors2 errors3 : List String) (pages : List Nat) (p0 : Nat)
    (net2 : Nat → Nat → Except JSError ListingBody)
    (body : Nat → ListingBody) (hmr : 1 ≤ maxRetries)
    (hfail : ∀ a, ∃ e, net a = Except.error e)
    (hbfail : ∀ a, ∃ e, bnet a = Except.error e)
    (hok : ∀ q ∈ pages, q ≠ p0 → net2 q 1 = Except.ok (body q))
    (hp0 : ∀ a, ∃ e, net2 p0 a = Except.error e)
    (hcount : pages.count p0 = 1) :
    fetchPageGo maxRetries net page errors1 1 =
      ([], errors1 ++ [failPageMsg page maxRetries], maxRetries) ∧
    fetchAgentBioGo maxRetries bnet agentId errors2 1 =
      (none, errors2 ++ [failBioMsg agentId maxRetries], maxRetries) ∧
    runBatch maxRetries net2 pages errors3 =
      (pages.map (fun q => if q = p0 then [] else (body q).data.agent),
        errors3 ++ [failPageMsg p0 maxRetries]) := by
  have e1 := fetchPageGo_allFail maxRetries net page errors1 1 hfail hmr
  have e2 := fetchAgentBioGo_allFail maxRetries bnet agentId errors2 1
    hbfail hmr
  have hm : maxRetries - 1 + 1 = maxRetries := by omega
  rw [hm] at e1 e2
  exact ⟨e1, e2,
    runBatch_one_fail maxRetries net2 body p0 pages errors3 hmr hok hp0
      hcount⟩

/-- Witness for C3 at concrete inputs: with `maxRetries = 3`, an
always-failing page and an always-failing detail id produce the skip
values, three attempts and one error entry each, and the batch
`[2, 3, 4]` in which only page 3 fails yields the other two pages'
agents plus exactly one error entry. -/
theorem c3_retry_exhaustion_witness :
    [2, 3, 4].count 3 = 1 ∧
    (fetchPageGo 3 (fun _ => Except.error JSError.timeout) 7 [] 1 =
      ([], [failPageMsg 7 3], 3) ∧
    fetchAgentBioGo 3 (fun _ => Except.error JSError.timeout)
        (JSValue.num 3102) [] 1 =
      (none, [failBioMsg (JSValue.num 3102) 3], 3) ∧
    runBatch 3
        (fun q _ => if q = 3 then Except.error JSError.timeout
          else Except.ok ⟨⟨1000, [⟨JSValue.num q⟩]⟩⟩) [2, 3, 4] [] =
      ([2, 3, 4].map (fun q => if q = 3 then []
          else [(⟨JSValue.num q⟩ : AgentRec)]),
        [failPageMsg 3 3])) :=
  ⟨rfl,
    c3_retry_exhaustion 3 (fun _ => Except.error JSError.timeout)
      (fun _ => Except.error JSError.timeout) 7 (JSValue.num 3102)
      [] [] [] [2, 3, 4] 3
      (fun q _ => if q = 3 then Except.error JSError.timeout
        else Except.ok ⟨⟨1000, [⟨JSValue.num q⟩]⟩⟩)
      (fun p => ⟨⟨1000, [⟨JSValue.num p⟩]⟩⟩)
      (by decide)
      (fun _ => ⟨JSError.timeout, rfl⟩)
      (fun _ => ⟨JSError.timeout, rfl⟩)
      (fun q _ hq3 => by simp [hq3])
      (fun _ => ⟨JSError.timeout, rfl⟩)
      (by decide)⟩

theorem jsGet_cons (f : String × JSValue) (l : List (String × JSValue))
    (k : String) :
    jsGet (f :: l) k = if f.1 == k then some f.2 else jsGet l k := by
  by_cases h : (f.1 == k) = true
  · simp [jsGet, List.find?_cons_of_pos, h]
  · have h2 : (f.1 == k) = false := by
      cases hb : (f.1 == k) with
      | true => exact absurd hb h
      | false => rfl
    simp [jsGet, List.find?_cons_of_neg, h2]

theorem jsGet_jsSet_self (o : List (String × JSValue)) (k : String)
    (v : JSValue) : jsGet (jsSet o k v) k = some v := by
  induction o with
  | nil => simp [jsSet, jsGet_cons]
  | cons f fs ih =>
    by_cases h : f.1 = k
    · simp [jsSet, h, jsGet_cons]
    · simp only [jsSet, if_neg h]
      rw [jsGet_cons]
      have h2 : (f.1 == k) = false := by simp [h]
      rw [h2]
      simpa using ih

theorem jsGet_jsSet_ne (o : List (String × JSValue)) (k' k : String)
    (v : JSValue) (h : k' ≠ k) :
    jsGet (jsSet o k' v) k = jsGet o k := by
  induction o with
  | nil =>
    rw [jsSet, jsGet_cons]
    have h2 : (k' == k) = false := by simp [h]
    rw [h2]
    simp
  | cons f fs ih =>
    by_cases hf : f.1 = k'
    · simp only [jsSet, if_pos hf]
      rw [jsGet_cons, jsGet_cons]
      have h2 : (k' == k) = false := by simp [h]
      have h3 : (f.1 == k) = false := by simp [hf, h]
      rw [h2, h3]
      simp
    · simp only [jsSet, if_neg hf]
      rw [jsGet_cons, jsGet_cons, ih]

theorem jsGet_eq_none_of_not_mem (o : List (String × JSValue)) (k : String)
    (h : k ∉ o.map Prod.fst) : jsGet o k = none := by
  induction o with
  | nil => rfl
  | cons f fs ih =>
    have h1 : ¬ f.1 = k := fun hh => h (by
      rw [List.map_cons, ← hh]
      exact List.mem_cons_self _ _)
    rw [jsGet_cons]
    have h2 : (f.1 == k) = false := by simp [h1]
    rw [h2]
    simp only [if_neg Bool.false_ne_true]
    refine ih fun hm => h ?_
    rw [List.map_cons]
    exact List.mem_cons_of_mem f.1 hm

theorem jsGet_jsSpread_of_none (d : List (String × JSValue))
    (acc : List (String × JSValue)) (k : String) (hd : jsGet d k = none) :
    jsGet (jsSpread acc d) k = jsGet acc k := by
  induction d generalizing acc with
  | nil => rfl
  | cons f fs ih =>
    rw [jsGet_cons] at hd
    by_cases h : (f.1 == k) = true
    · rw [if_pos h] at hd
      exact absurd hd (by simp)
    · have h2 : (f.1 == k) = false := by
        cases hb : (f.1 == k) with
        | true => exact absurd hb h
        | false => rfl
      rw [h2] at hd
      simp only [if_neg Bool.false_ne_true] at hd
      show jsGet (jsSpread (jsSet acc f.1 f.2) fs) k = jsGet acc k
      rw [ih (jsSet acc f.1 f.2) hd,
        jsGet_jsSet_ne acc f.1 k f.2 (by simpa using h2)]

theorem jsGet_jsSpread_of_some (d : List (String × JSValue))
    (acc : List (String × JSValue)) (k : String) (w : JSValue)
    (hnd : (d.map Prod.fst).Nodup) (hd : jsGet d k = some w) :
    jsGet (jsSpread acc d) k = some w := by
  induction d generalizing acc with
  | nil => simp [jsGet] at hd
  | cons f fs ih =>
    rw [jsGet_cons] at hd
    rw [List.map_cons, List.nodup_cons] at hnd
    by_cases h : (f.1 == k) = true
    · rw [if_pos h] at hd
      have hk : f.1 = k := by simpa using h
      have hw : f.2 = w := by simpa using hd
      have hnotin : k ∉ fs.map Prod.fst := hk ▸ hnd.1
      have hfs : jsGet fs k = none := jsGet_eq_none_of_not_mem fs k hnotin
      show jsGet (jsSpread (jsSet acc f.1 f.2) fs) k = some w
      rw [jsGet_jsSpread_of_none fs _ k hfs, hk, jsGet_jsSet_self, hw]
    · have h2 : (f.1 == k) = false := by
        cases hb : (f.1 == k) with
        | true => exact absurd hb h
        | false => rfl
      rw [h2] at hd
      simp only [if_neg Bool.false_ne_true] at hd
      exact ih (jsSet acc f.1 f.2) hnd.2 hd

/-- C10 (amended): a successful detail fetch emits the record
`\x7bid: agentId, ...res.data\x7d`; when the payload carries no `id` key
the record's `id` equals the requested identifier, and when the payload
carries an `id` key that value silently overwrites the requested
identifier — the record's `id` equals the payload's value (which may
coincidentally equal the requested identifier, so the original "if and
only if" phrasing fails; see the counterexample). -/
theorem c10_record_id_overwrite (maxRetries : Nat)
    (net : Nat → Except JSError BioBody) (a w : JSValue)
    (errors : List String) (b : BioBody)
    (d1 d2 : List (String × JSValue)) :
    (net 1 = Except.ok b →
      fetchAgentBioGo maxRetries net a errors 1 =
        (some (buildBioRecord a b.data), errors, 1)) ∧
    (jsGet d1 "id" = none →
      jsGet (buildBioRecord a d1) "id" = some a) ∧
    ((d2.map Prod.fst).Nodup → jsGet d2 "id" = some w →
      jsGet (buildBioRecord a d2) "id" = some w) := by
  refine ⟨fun hb => ?_, fun h1 => ?_, fun hnd h2 => ?_⟩
  · unfold fetchAgentBioGo
    rw [hb]
  · rw [buildBioRecord, jsGet_jsSpread_of_none d1 _ _ h1, jsGet_cons]
    simp
  · exact jsGet_jsSpread_of_some d2 _ _ w hnd h2

/-- Witness for C10 (amended) at concrete inputs: a successful fetch
emits the spread record; a payload without `id` keeps the requested id
`5`; a payload with `id: "9"` overwrites it. -/
theorem c10_record_id_overwrite_witness :
    ((fun _ => Except.ok ⟨[("name", JSValue.str "X")]⟩ :
          Nat → Except JSError BioBody) 1 =
        (Except.ok ⟨[("name", JSValue.str "X")]⟩ :
          Except JSError BioBody) →
      fetchAgentBioGo 3
          (fun _ => Except.ok ⟨[("name", JSValue.str "X")]⟩ :
            Nat → Except JSError BioBody)
          (JSValue.num 5) [] 1 =
        (some (buildBioRecord (JSValue.num 5)
          [("name", JSValue.str "X")]), [], 1)) ∧
    (jsGet [("name", JSValue.str "X")] "id" = none →
      jsGet (buildBioRecord (JSValue.num 5) [("name", JSValue.str "X")])
        "id" = some (JSValue.num 5)) ∧
    (([("id", JSValue.str "9"), ("name", JSValue.str "X")].map
        Prod.fst).Nodup →
      jsGet [("id", JSValue.str "9"), ("name", JSValue.str "X")] "id" =
        some (JSValue.str "9") →
      jsGet (buildBioRecord (JSValue.num 5)
          [("id", JSValue.str "9"), ("name", JSValue.str "X")]) "id" =
        some (JSValue.str "9")) :=
  c10_record_id_overwrite 3
    (fun _ => Except.ok ⟨[("name", JSValue.str "X")]⟩ :
      Nat → Except JSError BioBody)
    (JSValue.num 5) (JSValue.str "9") []
    (⟨[("name", JSValue.str "X")]⟩ : BioBody)
    [("name", JSValue.str "X")]
    [("id", JSValue.str "9"), ("name", JSValue.str "X")]

/-- Counterexample to C10 as stated: with requested identifier `3102` and
a detail payload that itself contains `id: 3102`, the emitted record's
`id` equals the requested identifier even though the payload does contain
an `id` key — refuting the claimed "if and only if". -/
theorem c10_id_iff_counterexample :
    jsGet (buildBioRecord (JSValue.num 3102) [("id", JSValue.num 3102)])
        "id" = some (JSValue.num 3102) ∧
    jsGet [("id", JSValue.num 3102)] "id" ≠ none := by
  refine ⟨rfl, fun h => ?_⟩
  have h2 : some (JSValue.num 3102) = (none : Option JSValue) := h
  exact Option.noConfusion h2

theorem phase1Loop_allSuccess (batchSize maxRetries : Nat)
    (net : Nat → Nat → Except JSError ListingBody)
    (body : Nat → ListingBody) (pages i : Nat) (acc : List JSValue)
    (errors : List String) (fetched : List Nat) (hbs : 1 ≤ batchSize)
    (hnet : ∀ p a, net p a = Except.ok (body p)) :
    phase1Loop batchSize maxRetries net pages i acc errors fetched =
      ⟨acc ++ ((List.range' i (pages - i)).map
          (fun p => (body p).data.agent.map AgentRec.agentId)).flatten,
        errors, fetched ++ List.range' i (pages - i)⟩ := by
  by_cases hstop : pages ≤ i
  · have hz : pages - i = 0 := by omega
    unfold phase1Loop
    rw [dif_pos (Or.inr hstop)]
    simp [hz]
  · have hi : i < pages := by omega
    have hcond : ¬ (batchSize = 0 ∨ pages ≤ i) := by omega
    have hsplit : List.range' i (min batchSize (pages - i)) ++
        List.range' (i + batchSize) (pages - (i + batchSize)) =
        List.range' i (pages - i) := by
      by_cases hc : batchSize ≤ pages - i
      · have hm : min batchSize (pages - i) = batchSize := by omega
        rw [hm, List.range'_append_1]
        congr 1
        omega
      · have hm : min batchSize (pages - i) = pages - i := by omega
        have hz : pages - (i + batchSize) = 0 := by omega
        rw [hm, hz]
        simp
    have hrb := runBatch_allSuccess maxRetries net body
      (List.range' i (min batchSize (pages - i))) errors
      (fun q _ => hnet q 1)
    have ih := phase1Loop_allSuccess batchSize maxRetries net body pages
      (i + batchSize)
      (acc ++ (((List.range' i (min batchSize (pages - i))).map
        (fun q => (body q).data.agent)).map
          (fun ag => ag.map AgentRec.agentId)).flatten)
      errors
      (fetched ++ List.range' i (min batchSize (pages - i)))
      hbs hnet
    unfold phase1Loop
    rw [dif_neg hcond]
    simp only [hrb, ih, Phase1Out.mk.injEq]
    refine ⟨?_, trivial, ?_⟩
    · rw [← hsplit, List.map_append, List.flatten_append, List.append_assoc,
        List.map_map]
      rfl
    · rw [← hsplit, List.append_assoc]
termination_by pages - i
decreasing_by omega

/-- C8: phase-1 enumeration derives
`pages = ceil(totalAgents / pageSize)` from the directly fetched page 0
and then fetches exactly the pages `[1, pages)` through the batch loop;
when every page succeeds, the collected identifier list is exactly the
concatenation of all pages' agent-id lists in page order (page 0's ids
followed by the batched pages' ids — no duplicates, no omissions), and in
particular `total_count = 1000` with `page_size = 500` gives
`page_count = 2`. -/
theorem c8_phase1_enumeration (pageSize batchSize maxRetries : Nat)
    (net : Nat → Nat → Except JSError ListingBody)
    (body : Nat → ListingBody) (hbs : 1 ≤ batchSize)
    (hnet : ∀ p a, net p a = Except.ok (body p)) :
    phase1 pageSize batchSize maxRetries net =
      Except.ok ⟨(body 0).data.agent.map AgentRec.agentId ++
          ((List.range' 1 (pageCountOf (body 0).data.totalAgents pageSize
            - 1)).map
            (fun p => (body p).data.agent.map AgentRec.agentId)).flatten,
        [],
        List.range' 1
          (pageCountOf (body 0).data.totalAgents pageSize - 1)⟩ ∧
    (1 ≤ pageCountOf (body 0).data.totalAgents pageSize →
      (body 0).data.agent.map AgentRec.agentId ++
          ((List.range' 1 (pageCountOf (body 0).data.totalAgents pageSize
            - 1)).map
            (fun p => (body p).data.agent.map AgentRec.agentId)).flatten =
        ((List.range (pageCountOf (body 0).data.totalAgents pageSize)).map
          (fun p => (body p).data.agent.map AgentRec.agentId)).flatten) ∧
    pageCountOf 1000 500 = 2 := by
  refine ⟨?_, ?_, by decide⟩
  · have hP := phase1Loop_allSuccess batchSize maxRetries net body
      (pageCountOf (body 0).data.totalAgents pageSize) 1
      ((body 0).data.agent.map AgentRec.agentId) [] [] hbs hnet
    unfold phase1
    rw [hnet 0 1]
    simp only [hP, List.nil_append]
  · intro h1
    obtain ⟨M, hM⟩ : ∃ M,
        pageCountOf (body 0).data.totalAgents pageSize = M + 1 :=
      ⟨pageCountOf (body 0).data.totalAgents pageSize - 1, by omega⟩
    rw [hM]
    rw [List.range_eq_range', List.range'_succ]
    simp

/-- Witness for C8 at the claim's concrete scenario: `totalAgents = 1000`,
`pageSize = 500` (one agent per modelled page), `batchSize = 5`,
`maxRetries = 3`: the page count is 2, the batch loop fetches exactly
page 1, and the id list is page 0's ids followed by page 1's ids. -/
theorem c8_phase1_enumeration_witness :
    1 ≤ 5 ∧
    (phase1 500 5 3 (fun p _ => Except.ok ⟨⟨1000, [⟨JSValue.num p⟩]⟩⟩ :
          Nat → Nat → Except JSError ListingBody) =
        Except.ok ⟨[JSValue.num 0, JSValue.num 1], [], [1]⟩ ∧
      (1 ≤ pageCountOf 1000 500 →
        ([JSValue.num 0, JSValue.num 1] : List JSValue) =
          ((List.range (pageCountOf 1000 500)).map
            (fun p => [JSValue.num p])).flatten) ∧
      pageCountOf 1000 500 = 2) :=
  ⟨by decide,
    c8_phase1_enumeration 500 5 3
      (fun p _ => Except.ok ⟨⟨1000, [⟨JSValue.num p⟩]⟩⟩)
      (fun p => ⟨⟨1000, [⟨JSValue.num p⟩]⟩⟩) (by decide)
      (fun _ _ => rfl)⟩
